import Mathlib

/-!
Verification of the glucose minimal model notebook (chap18): the discrete
stepping simulator, the continuous-simulation bridging, the fitting objective
and the sensitivity indices, embedded shallowly over exact rationals (reals
for the calculus argument about the zero-rate slope rule).
-/

/-- A simulation state: named fields G (glucose concentration) and X (remaining
insulin effect), mirroring the notebook value State(G=..., X=...). -/
structure State (α : Type) where
  G : α
  X : α
deriving DecidableEq

/-- The System bundle of the notebook. Fields that are present in some of the
bundles built by the notebook and absent in others (G0, the insulin signal I,
the step dt) are Options: none models the field being absent from the bundle,
in which case unpack would leave the name undefined inside a rule and its use
would raise. -/
structure System (α : Type) where
  G0 : Option α
  k1 : α
  k2 : α
  k3 : α
  init : State α
  Gb : α
  Ib : α
  I : Option (α → α)
  t_0 : α
  t_end : α
  dt : Option α

/-- One observed data row: the table read from glucose_insulin.csv is indexed
by time and has glucose and insulin columns. -/
structure DataRow where
  time : ℚ
  glucose : ℚ
  insulin : ℚ
deriving DecidableEq

/-- The parameter bundle Params(G0, k1, k2, k3) of the notebook. -/
structure Params where
  G0 : ℚ
  k1 : ℚ
  k2 : ℚ
  k3 : ℚ
deriving DecidableEq

/-- The discrete update rule of the notebook. It unpacks k1, k2, k3, Gb, Ib,
I and dt from the system; I and dt are Option fields, so their absence makes
the rule raise, modelled as none. -/
def update_func (state : State ℚ) (t : ℚ) (system : System ℚ) :
    Option (State ℚ) := do
  let If ← system.I
  let d ← system.dt
  let dGdt := -system.k1 * (state.G - system.Gb) - state.X * state.G
  let dXdt := system.k3 * (If t - system.Ib) - system.k2 * state.X
  pure { G := state.G + dGdt * d, X := state.X + dXdt * d }

/-- The slope rule of the notebook: same derivative terms as update_func but
returned bare, without any step applied. -/
def slope_func {α : Type} [Ring α] (state : State α) (t : α)
    (system : System α) : Option (α × α) := do
  let If ← system.I
  pure (-system.k1 * (state.G - system.Gb) - state.X * state.G,
        system.k3 * (If t - system.Ib) - system.k2 * state.X)

/-- Modelled from the spec: the stepping grid is built by linrange in
modsim.py, which is not under src/. Per the spec the update times form the
strictly increasing sequence t_0, t_0 + dt, t_0 + 2 dt, ... and each recorded
successor t + dt falls at or before t_end, never after; num_steps is the
number of such update times. -/
def num_steps (t_0 t_end d : ℚ) : Nat :=
  (Int.floor ((t_end - t_0) / d)).toNat

/-- Modelled from the spec: the list of update times t_0 + i * dt handed to
the stepping loop of run_simulation; see num_steps. -/
def linrange (t_0 t_end d : ℚ) : List ℚ :=
  (List.range (num_steps t_0 t_end d)).map (fun i : ℕ => t_0 + (i : ℚ) * d)

/-- The body of the loop in run_simulation: walk the update times, apply the
rule to the row recorded at label t and record the output at label t + d.
A rule failure (a raise in Python) aborts the whole run, value none. Returns
the recorded rows together with the final state. -/
def sim_steps (system : System ℚ)
    (f : State ℚ → ℚ → System ℚ → Option (State ℚ)) (d : ℚ) :
    State ℚ → List ℚ → Option (List (ℚ × State ℚ) × State ℚ)
  | s, [] => some ([], s)
  | s, t :: ts => do
    let s2 ← f s t system
    let p ← sim_steps system f d s2 ts
    pure ((t + d, s2) :: p.1, p.2)

/-- run_simulation from the notebook: seed the frame with the initial state at
t_0, then loop over linrange(t_0, t_end, dt) recording the rule output at
t + dt. A missing dt in the system makes unpack leave dt undefined, so the
run fails, modelled as none. -/
def run_simulation (system : System ℚ)
    (f : State ℚ → ℚ → System ℚ → Option (State ℚ)) :
    Option (List (ℚ × State ℚ)) := do
  let d ← system.dt
  let p ← sim_steps system f d system.init (linrange system.t_0 system.t_end d)
  pure ((system.t_0, system.init) :: p.1)

/-- Modelled from the spec: run_ode_solver lives in modsim.py, which is not
under src/. It delegates the actual integration to an external adaptive
solver treated as a black box, and only bridges: one named row per requested
evaluation time, in the requested order. The solver is abstracted by the
solution sol it computes; the bridging is modelled exactly. -/
def run_ode_solver {α : Type} (system : System α)
    (slope : State α → α → System α → Option (α × α))
    (t_eval : List α) (sol : α → State α) : List (α × State α) :=
  t_eval.map (fun t => (t, sol t))

/-- The label lookup data.glucose[0] / data.insulin[0] of the notebook:
pandas selects the row whose time label equals 0, and raises when no such
label exists, modelled as none. -/
def row0 (data : List DataRow) : Option DataRow :=
  data.find? (fun r => r.time == 0)

/-- make_system from the notebook: baselines from the row labelled 0, span
from the first and last labels, initial state State(G=G0, X=0). The bundle it
builds carries neither the insulin signal I nor a step dt. -/
def make_system (params : Params) (data : List DataRow) :
    Option (System ℚ) := do
  let r0 ← row0 data
  let firstRow ← data.head?
  let lastRow ← data.getLast?
  pure { G0 := some params.G0, k1 := params.k1, k2 := params.k2,
         k3 := params.k3, init := { G := params.G0, X := 0 },
         Gb := r0.glucose, Ib := r0.insulin,
         I := none, t_0 := firstRow.time, t_end := lastRow.time, dt := none }

/-- error_func from the notebook: build the system from the candidate
parameters, solve the ODE at the observed times, and subtract the observed
glucose column pointwise at matching labels (the print of params in the
source is console output only and does not affect the result). -/
def error_func (sol : ℚ → State ℚ) (params : Params) (data : List DataRow) :
    Option (List (ℚ × ℚ)) := do
  let system ← make_system params data
  let results := run_ode_solver system slope_func (data.map (fun r => r.time)) sol
  pure (List.zipWith (fun r d0 => (d0.time, r.2.G - d0.glucose)) results data)

/-- Modelled from the spec: fit_leastsq lives in modsim.py, which is not
under src/. It wraps an external nonlinear least-squares routine, handing it
the objective, the initial guess and the data, and returns the best
parameters plus a success diagnostic; the routine is abstracted as a
function lsq of those inputs. -/
def fit_leastsq
    (lsq : (Params → List DataRow → Option (List (ℚ × ℚ))) →
           Params → List DataRow → Params × Bool)
    (err : Params → List DataRow → Option (List (ℚ × ℚ)))
    (x0 : Params) (data : List DataRow) : Params × Bool :=
  lsq err x0 data

/-- The result bundle of indices: State(S_G=..., S_I=...). -/
structure IndState where
  S_G : ℚ
  S_I : ℚ
deriving DecidableEq

/-- indices from the notebook: glucose effectiveness S_G = k1 and insulin
sensitivity S_I = k3 / k2. The division k3 / k2 raises ZeroDivisionError in
Python when k2 = 0, modelled as none. -/
def indices (params : Params) : Option IndState :=
  if params.k2 = 0 then none
  else some { S_G := params.k1, S_I := params.k3 / params.k2 }

/-- The parameter values of the notebook, exact: G0 = 290, k1 = 0.03,
k2 = 0.02, k3 = 1e-05. -/
def exParams : Params :=
  { G0 := 290, k1 := 3 / 100, k2 := 1 / 50, k3 := 1 / 100000 }

/-- A small observed data table shaped like glucose_insulin.csv: time labels
0, 2, 4, a glucose column and an insulin column. -/
def exData : List DataRow :=
  [{ time := 0, glucose := 92, insulin := 11 },
   { time := 2, glucose := 350, insulin := 26 },
   { time := 4, glucose := 287, insulin := 130 }]

/-- An observed table whose strictly increasing time index does not contain
the label 0, although it has a perfectly good first row. -/
def dataNo0 : List DataRow :=
  [{ time := 1, glucose := 50, insulin := 5 },
   { time := 2, glucose := 60, insulin := 6 }]

/-- A malformed observed table whose first label is larger than its last. -/
def badData : List DataRow :=
  [{ time := 4, glucose := 92, insulin := 11 },
   { time := 0, glucose := 100, insulin := 20 }]

/-- The full System of the notebook (the cell that also passes I and dt),
shrunk to the span 0..4 with dt = 2 and a constant insulin signal. -/
def exSystem : System ℚ :=
  { G0 := none, k1 := 3 / 100, k2 := 1 / 50, k3 := 1 / 100000,
    init := { G := 290, X := 0 }, Gb := 92, Ib := 11,
    I := some (fun _ => 11), t_0 := 0, t_end := 4, dt := some 2 }

/-- The System that make_system builds from exParams and exData. -/
def exSysM : System ℚ :=
  { G0 := some 290, k1 := 3 / 100, k2 := 1 / 50, k3 := 1 / 100000,
    init := { G := 290, X := 0 }, Gb := 92, Ib := 11,
    I := none, t_0 := 0, t_end := 4, dt := none }

/-- A malformed System: non-increasing time span, t_0 = 5 above t_end = 0. -/
def sysBad : System ℚ :=
  { G0 := none, k1 := 3 / 100, k2 := 1 / 50, k3 := 1 / 100000,
    init := { G := 290, X := 0 }, Gb := 92, Ib := 11,
    I := some (fun _ => 11), t_0 := 5, t_end := 0, dt := some 2 }

/-- A malformed System: the step dt required by the update rule is absent. -/
def sysNoDt : System ℚ :=
  { G0 := none, k1 := 3 / 100, k2 := 1 / 50, k3 := 1 / 100000,
    init := { G := 290, X := 0 }, Gb := 92, Ib := 11,
    I := some (fun _ => 11), t_0 := 0, t_end := 4, dt := none }

/-- A concrete constant solver solution over the rationals. -/
def solQ : ℚ → State ℚ := fun _ => { G := 290, X := 0 }

/-- A concrete external least-squares routine: returns the guess, success. -/
def lsqW : (Params → List DataRow → Option (List (ℚ × ℚ))) →
    Params → List DataRow → Params × Bool :=
  fun _ x0 _ => (x0, true)

/-- A rule that raises exactly at time 2 and is the identity elsewhere. -/
def failF : State ℚ → ℚ → System ℚ → Option (State ℚ) :=
  fun s t _ => if t == 2 then none else some s

/-- The identity update rule, used to exercise the stepping harness. -/
def idF : State ℚ → ℚ → System ℚ → Option (State ℚ) :=
  fun s _ _ => some s

/-- The real-valued System with every rate constant zero, for the claim about
the zero-rate slope rule. -/
def sysR : System ℝ :=
  { G0 := none, k1 := 0, k2 := 0, k3 := 0,
    init := { G := 290, X := 0 }, Gb := 92, Ib := 11,
    I := some (fun _ => 11), t_0 := 0, t_end := 4, dt := none }

/-- The constant real solution through the initial state of sysR. -/
def solR : ℝ → State ℝ := fun _ => { G := 290, X := 0 }

theorem sim_steps_nil (system : System ℚ)
    (f : State ℚ → ℚ → System ℚ → Option (State ℚ)) (d : ℚ) (s : State ℚ) :
    sim_steps system f d s [] = some ([], s) := rfl

theorem sim_steps_cons (system : System ℚ)
    (f : State ℚ → ℚ → System ℚ → Option (State ℚ)) (d : ℚ) (s : State ℚ)
    (t : ℚ) (ts : List ℚ) :
    sim_steps system f d s (t :: ts)
      = (f s t system).bind (fun s2 =>
          (sim_steps system f d s2 ts).bind (fun p =>
            some ((t + d, s2) :: p.1, p.2))) := rfl

theorem sim_steps_length (system : System ℚ)
    (f : State ℚ → ℚ → System ℚ → Option (State ℚ)) (d : ℚ) :
    ∀ (ts : List ℚ) (s : State ℚ) (p : List (ℚ × State ℚ) × State ℚ),
      sim_steps system f d s ts = some p → p.1.length = ts.length := by
  intro ts
  induction ts with
  | nil =>
    intro s p h
    rw [sim_steps_nil] at h
    cases h
    rfl
  | cons t ts ih =>
    intro s p h
    rw [sim_steps_cons] at h
    cases hf : f s t system with
    | none => rw [hf, Option.none_bind] at h; simp at h
    | some s2 =>
      rw [hf, Option.some_bind] at h
      cases hrec : sim_steps system f d s2 ts with
      | none => rw [hrec, Option.none_bind] at h; simp at h
      | some q =>
        rw [hrec, Option.some_bind] at h
        cases h
        simpa using ih s2 q hrec

theorem sim_steps_time (system : System ℚ)
    (f : State ℚ → ℚ → System ℚ → Option (State ℚ)) (d : ℚ) :
    ∀ (ts : List ℚ) (s : State ℚ) (p : List (ℚ × State ℚ) × State ℚ),
      sim_steps system f d s ts = some p →
      ∀ i, i < p.1.length → ∀ d0, (p.1.getD i d0).1 = ts.getD i 0 + d := by
  intro ts
  induction ts with
  | nil =>
    intro s p h i hi d0
    rw [sim_steps_nil] at h
    cases h
    simp at hi
  | cons t ts ih =>
    intro s p h i hi d0
    rw [sim_steps_cons] at h
    cases hf : f s t system with
    | none => rw [hf, Option.none_bind] at h; simp at h
    | some s2 =>
      rw [hf, Option.some_bind] at h
      cases hrec : sim_steps system f d s2 ts with
      | none => rw [hrec, Option.none_bind] at h; simp at h
      | some q =>
        rw [hrec, Option.some_bind] at h
        cases h
        cases i with
        | zero => simp
        | succ j =>
          simp only [List.getD_cons_succ]
          have hj : j < q.1.length := by
            simp at hi
            omega
          exact ih s2 q hrec j hj d0

theorem sim_steps_step (system : System ℚ)
    (f : State ℚ → ℚ → System ℚ → Option (State ℚ)) (d : ℚ) :
    ∀ (ts : List ℚ) (s : State ℚ) (p : List (ℚ × State ℚ) × State ℚ),
      sim_steps system f d s ts = some p →
      ∀ i, i < p.1.length → ∀ d0,
        f (if i = 0 then s else (p.1.getD (i - 1) d0).2) (ts.getD i 0) system
          = some ((p.1.getD i d0).2) := by
  intro ts
  induction ts with
  | nil =>
    intro s p h i hi d0
    rw [sim_steps_nil] at h
    cases h
    simp at hi
  | cons t ts ih =>
    intro s p h i hi d0
    rw [sim_steps_cons] at h
    cases hf : f s t system with
    | none => rw [hf, Option.none_bind] at h; simp at h
    | some s2 =>
      rw [hf, Option.some_bind] at h
      cases hrec : sim_steps system f d s2 ts with
      | none => rw [hrec, Option.none_bind] at h; simp at h
      | some q =>
        rw [hrec, Option.some_bind] at h
        cases h
        cases i with
        | zero => simpa using hf
        | succ j =>
          have hj : j < q.1.length := by
            simp at hi
            omega
          have hrecstep := ih s2 q hrec j hj d0
          cases j with
          | zero => simpa using hrecstep
          | succ k => simpa using hrecstep

theorem sim_steps_append (system : System ℚ)
    (f : State ℚ → ℚ → System ℚ → Option (State ℚ)) (d : ℚ) :
    ∀ (ts1 ts2 : List ℚ) (s : State ℚ),
      sim_steps system f d s (ts1 ++ ts2)
        = (sim_steps system f d s ts1).bind (fun p =>
            (sim_steps system f d p.2 ts2).bind (fun q =>
              some (p.1 ++ q.1, q.2))) := by
  intro ts1
  induction ts1 with
  | nil =>
    intro ts2 s
    rw [List.nil_append, sim_steps_nil, Option.some_bind]
    cases hrec : sim_steps system f d s ts2 with
    | none => rfl
    | some q => rfl
  | cons t ts1 ih =>
    intro ts2 s
    rw [List.cons_append, sim_steps_cons, sim_steps_cons]
    cases hf : f s t system with
    | none => rfl
    | some s2 =>
      rw [Option.some_bind, Option.some_bind, ih ts2 s2]
      cases h1 : sim_steps system f d s2 ts1 with
      | none => rfl
      | some p =>
        simp only [Option.some_bind]
        cases h2 : sim_steps system f d p.2 ts2 with
        | none => simp [h2]
        | some q => simp [h2]

theorem zipWith_map_self {α β γ : Type} (f : β → α → γ) (g : α → β) :
    ∀ l : List α, List.zipWith f (l.map g) l = l.map (fun a => f (g a) a) := by
  intro l
  induction l with
  | nil => rfl
  | cons a l ih => simp [ih]

theorem range_map_getD {β : Type} (g : ℕ → β) (b : β) (n i : ℕ) (h : i < n) :
    ((List.range n).map g).getD i b = g i := by
  have hlen : i < ((List.range n).map g).length := by simpa using h
  rw [List.getD_eq_getElem _ _ hlen]
  simp

theorem num_steps_le (t0 te d : ℚ) (hd : 0 < d) (hle : t0 ≤ te) :
    t0 + (num_steps t0 te d : ℚ) * d ≤ te := by
  have hq : 0 ≤ (te - t0) / d := div_nonneg (by linarith) hd.le
  have hcast : ((num_steps t0 te d : ℚ)) = ((Int.floor ((te - t0) / d) : ℤ) : ℚ) := by
    unfold num_steps
    exact_mod_cast congrArg (fun z : ℤ => (z : ℚ))
      (Int.toNat_of_nonneg (Int.floor_nonneg.mpr hq))
  have h1 : ((num_steps t0 te d : ℚ)) ≤ (te - t0) / d := by
    rw [hcast]
    exact Int.floor_le _
  have h3 : ((num_steps t0 te d : ℚ)) * d ≤ te - t0 := by
    calc ((num_steps t0 te d : ℚ)) * d ≤ ((te - t0) / d) * d :=
          mul_le_mul_of_nonneg_right h1 hd.le
      _ = te - t0 := div_mul_cancel₀ _ (ne_of_gt hd)
  linarith

theorem num_steps_eq_zero (t0 te d : ℚ) (hd : 0 < d) (hlt : te < t0) :
    num_steps t0 te d = 0 := by
  unfold num_steps
  have hneg : (te - t0) / d < 0 := div_neg_of_neg_of_pos (by linarith) hd
  have h2 : Int.floor ((te - t0) / d) ≤ 0 := Int.floor_nonpos hneg.le
  exact Int.toNat_of_nonpos h2

theorem linrange_length (t0 te d : ℚ) :
    (linrange t0 te d).length = num_steps t0 te d := by
  simp [linrange]

theorem linrange_getD (t0 te d : ℚ) (i : ℕ) (h : i < num_steps t0 te d) :
    (linrange t0 te d).getD i 0 = t0 + (i : ℚ) * d := by
  unfold linrange
  exact range_map_getD _ _ _ _ h

theorem run_simulation_eq (system : System ℚ)
    (f : State ℚ → ℚ → System ℚ → Option (State ℚ)) (d : ℚ)
    (h : system.dt = some d) :
    run_simulation system f
      = (sim_steps system f d system.init
          (linrange system.t_0 system.t_end d)).bind
          (fun p => some ((system.t_0, system.init) :: p.1)) := by
  simp [run_simulation, h]

/-- Claim C10: for every parameter sequence (G0, k1, k2, k3) with k2 nonzero,
indices returns State(S_G = k1, S_I = k3 / k2); when k2 = 0 the unguarded
division makes indices fail with a division error rather than return a
value. -/
theorem indices_spec (params : Params) :
    (params.k2 ≠ 0 →
      indices params
        = some { S_G := params.k1, S_I := params.k3 / params.k2 }) ∧
    (params.k2 = 0 → indices params = none) := by
  constructor
  · intro h
    simp [indices, h]
  · intro h
    simp [indices, h]

/-- Witness for indices_spec: the notebook parameters, and the same with the
rate constant k2 zeroed out. -/
theorem indices_spec_witness :
    indices exParams
      = some { S_G := exParams.k1, S_I := exParams.k3 / exParams.k2 } ∧
    indices { G0 := 290, k1 := 3 / 100, k2 := 0, k3 := 1 / 100000 } = none :=
  ⟨(indices_spec exParams).1 (by norm_num [exParams]),
    (indices_spec _).2 rfl⟩

/-- Claim C8: the fitting loop is deterministic: two runs of fit_leastsq on
the error_func objective with identical initial guess and identical observed
data always return the same best parameters, there being no randomness source
anywhere in the objective or the fit. -/
theorem fit_leastsq_deterministic
    (lsq : (Params → List DataRow → Option (List (ℚ × ℚ))) →
           Params → List DataRow → Params × Bool)
    (sol : ℚ → State ℚ) (x0 x0' : Params) (data data' : List DataRow)
    (hx : x0 = x0') (hd : data = data') :
    fit_leastsq lsq (error_func sol) x0 data
      = fit_leastsq lsq (error_func sol) x0' data' := by
  rw [hx, hd]

/-- Witness for fit_leastsq_deterministic at a concrete routine, guess and
table. -/
theorem fit_leastsq_deterministic_witness :
    fit_leastsq lsqW (error_func solQ) exParams exData
      = fit_leastsq lsqW (error_func solQ) exParams exData :=
  fit_leastsq_deterministic lsqW solQ exParams exParams exData exData rfl rfl

/-- Counterexample to claim C5: the bundle make_system returns carries no
step size at all (its dt field is absent), and on a table whose strictly
increasing time index lacks the label 0 the baselines are not taken from the
first row: the label lookup fails and make_system raises instead of
returning a config. -/
theorem make_system_no_dt :
    (make_system exParams exData).map System.dt = some none ∧
    make_system exParams dataNo0 = none :=
  ⟨rfl, rfl⟩

/-- Claim C5 (amended): make_system returns a config containing the four
named parameters, the initial state State(G = G0, X = 0), baselines Gb and Ib
taken from the row labelled 0 (failing when that label is absent), start and
end times taken from the first and last labels of the time index, and no
step size: the bundle it builds has no dt field. -/
theorem make_system_fields (params : Params) (data : List DataRow)
    (r0 firstRow lastRow : DataRow)
    (h0 : row0 data = some r0) (h1 : data.head? = some firstRow)
    (h2 : data.getLast? = some lastRow) :
    make_system params data = some
      { G0 := some params.G0, k1 := params.k1, k2 := params.k2,
        k3 := params.k3, init := { G := params.G0, X := 0 },
        Gb := r0.glucose, Ib := r0.insulin,
        I := none, t_0 := firstRow.time, t_end := lastRow.time,
        dt := none } := by
  simp [make_system, row0] at h0 ⊢
  rw [h0, h1, h2]
  rfl

/-- Witness for make_system_fields at the notebook parameters and the small
table. -/
theorem make_system_fields_witness :
    make_system exParams exData = some exSysM :=
  make_system_fields exParams exData
    { time := 0, glucose := 92, insulin := 11 }
    { time := 0, glucose := 92, insulin := 11 }
    { time := 4, glucose := 287, insulin := 130 } rfl rfl rfl

/-- Counterexample to claim C4: nothing is validated or rejected. make_system
happily builds a bundle from a table whose first time label lies above its
last, and run_simulation on a config whose span is non-increasing (t_0 = 5,
t_end = 0) returns a normal one-row trajectory instead of raising an
error. -/
theorem config_never_rejected :
    (make_system exParams badData).isSome = true ∧
    sysBad.t_end < sysBad.t_0 ∧
    run_simulation sysBad update_func = some [(5, { G := 290, X := 0 })] := by
  refine ⟨rfl, by norm_num [sysBad], ?_⟩
  rw [run_simulation_eq sysBad update_func 2 rfl]
  have h0 : num_steps sysBad.t_0 sysBad.t_end 2 = 0 :=
    num_steps_eq_zero _ _ _ (by norm_num) (by norm_num [sysBad])
  rw [show linrange sysBad.t_0 sysBad.t_end 2 = [] from by
    simp [linrange, h0]]
  rw [sim_steps_nil, Option.some_bind]
  rfl

/-- Claim C4 (amended): malformed configurations are never rejected at a
boundary. With a positive step and a non-increasing span, run_simulation
silently returns a trajectory holding only the initial row; with the required
step parameter dt absent from the config, run_simulation fails only because
the harness itself uses dt, not through any explicit validation; and
make_system checks nothing (see the counterexample). -/
theorem config_errors_not_validated :
    (∀ (system : System ℚ)
        (f : State ℚ → ℚ → System ℚ → Option (State ℚ)) (d : ℚ),
        system.dt = some d → 0 < d → system.t_end < system.t_0 →
        run_simulation system f = some [(system.t_0, system.init)]) ∧
    (∀ (system : System ℚ)
        (f : State ℚ → ℚ → System ℚ → Option (State ℚ)),
        system.dt = none → run_simulation system f = none) := by
  constructor
  · intro system f d hdt hd hlt
    rw [run_simulation_eq system f d hdt]
    have h0 : num_steps system.t_0 system.t_end d = 0 :=
      num_steps_eq_zero _ _ _ hd hlt
    rw [show linrange system.t_0 system.t_end d = [] from by
      simp [linrange, h0]]
    rw [sim_steps_nil, Option.some_bind]
  · intro system f hdt
    simp [run_simulation, hdt]

/-- Witness for config_errors_not_validated: the two malformed concrete
configs, one with a decreasing span and one with dt absent. -/
theorem config_errors_not_validated_witness :
    run_simulation sysBad idF = some [(sysBad.t_0, sysBad.init)] ∧
    run_simulation sysNoDt update_func = none :=
  ⟨config_errors_not_validated.1 sysBad idF 2 rfl (by norm_num)
      (by norm_num [sysBad]),
    config_errors_not_validated.2 sysNoDt update_func rfl⟩

/-- Claim C1: the update rule itself performs the explicit Euler step, adding
each derivative term multiplied by dt, returning G + (-k1 (G - Gb) - X G) dt
and X + (k3 (I(t) - Ib) - k2 X) dt; and the stepping harness performs no
numerical integration of its own: every recorded row beyond the first is
exactly the caller-supplied rule applied to the previous row at that row's
recorded time. -/
theorem update_rule_euler_step :
    (∀ (state : State ℚ) (t : ℚ) (system : System ℚ) (If : ℚ → ℚ) (d : ℚ),
        system.I = some If → system.dt = some d →
        update_func state t system = some
          { G := state.G + (-system.k1 * (state.G - system.Gb)
                    - state.X * state.G) * d,
            X := state.X + (system.k3 * (If t - system.Ib)
                    - system.k2 * state.X) * d }) ∧
    (∀ (system : System ℚ)
        (f : State ℚ → ℚ → System ℚ → Option (State ℚ)) (d : ℚ)
        (traj : List (ℚ × State ℚ)),
        system.dt = some d → run_simulation system f = some traj →
        ∀ i, i + 1 < traj.length →
          f (traj.getD i (0, system.init)).2 (traj.getD i (0, system.init)).1
              system
            = some ((traj.getD (i + 1) (0, system.init)).2)) := by
  constructor
  · intro state t system If d h1 h2
    simp [update_func, h1, h2]
  · intro system f d traj hdt hrun i hi
    rw [run_simulation_eq system f d hdt] at hrun
    cases hss : sim_steps system f d system.init
        (linrange system.t_0 system.t_end d) with
    | none => rw [hss, Option.none_bind] at hrun; simp at hrun
    | some p =>
      rw [hss, Option.some_bind] at hrun
      cases hrun
      have hlen : p.1.length = (linrange system.t_0 system.t_end d).length :=
        sim_steps_length system f d _ _ _ hss
      have hn := linrange_length system.t_0 system.t_end d
      have hip : i < p.1.length := by
        simp at hi
        omega
      have hstep := sim_steps_step system f d _ _ _ hss i hip (0, system.init)
      have htime := sim_steps_time system f d _ _ _ hss
      cases i with
      | zero =>
        have hts : (linrange system.t_0 system.t_end d).getD 0 0
            = system.t_0 + (0 : ℚ) * d := by
          apply linrange_getD
          omega
        simp only [if_pos rfl] at hstep
        rw [hts] at hstep
        simpa using hstep
      | succ j =>
        have hts : (linrange system.t_0 system.t_end d).getD (j + 1) 0
            = system.t_0 + ((j + 1 : ℕ) : ℚ) * d := by
          apply linrange_getD
          omega
        have hjt : (p.1.getD j (0, system.init)).1
            = (linrange system.t_0 system.t_end d).getD j 0 + d :=
          htime j (by omega) _
        have hjs : (linrange system.t_0 system.t_end d).getD j 0
            = system.t_0 + (j : ℚ) * d := by
          apply linrange_getD
          omega
        simp only [Nat.succ_ne_zero, if_neg, Nat.add_sub_cancel] at hstep
        rw [hts] at hstep
        simp only [List.getD_cons_succ]
        have harg : (p.1.getD j (0, system.init)).1
            = system.t_0 + ((j + 1 : ℕ) : ℚ) * d := by
          rw [hjt, hjs]
          push_cast
          ring
        rw [harg]
        exact hstep

/-- Witness for update_rule_euler_step: the initial state and the full
notebook-style system, at time 0. -/
theorem update_rule_euler_step_witness :
    update_func { G := 290, X := 0 } 0 exSystem = some
      { G := (290 : ℚ) + (-exSystem.k1 * (290 - exSystem.Gb) - 0 * 290) * 2,
        X := (0 : ℚ) + (exSystem.k3 * (11 - exSystem.Ib) - exSystem.k2 * 0) * 2 } :=
  update_rule_euler_step.1 { G := 290, X := 0 } 0 exSystem (fun _ => 11) 2
    rfl rfl

/-- Claim C2: a successful run records the initial state at t_0, records row
i at time t_0 + i dt so the times are strictly increasing, never records a
time beyond t_end, and concretely for t_0 = 0, t_end = 4, dt = 2 it produces
exactly 3 rows at times 0, 2, 4. -/
theorem run_simulation_grid :
    (∀ (system : System ℚ)
        (f : State ℚ → ℚ → System ℚ → Option (State ℚ)) (d : ℚ)
        (traj : List (ℚ × State ℚ)),
        system.dt = some d → 0 < d → system.t_0 ≤ system.t_end →
        run_simulation system f = some traj →
        traj.getD 0 (0, system.init) = (system.t_0, system.init) ∧
        (∀ i, i < traj.length →
          (traj.getD i (0, system.init)).1 = system.t_0 + (i : ℚ) * d) ∧
        (∀ i, i + 1 < traj.length →
          (traj.getD i (0, system.init)).1
            < (traj.getD (i + 1) (0, system.init)).1) ∧
        (∀ row ∈ traj, row.1 ≤ system.t_end)) ∧
    (run_simulation exSystem update_func).map (fun traj => traj.map Prod.fst)
      = some [0, 2, 4] := by
  constructor
  · intro system f d traj hdt hd hle hrun
    rw [run_simulation_eq system f d hdt] at hrun
    cases hss : sim_steps system f d system.init
        (linrange system.t_0 system.t_end d) with
    | none => rw [hss, Option.none_bind] at hrun; simp at hrun
    | some p =>
      rw [hss, Option.some_bind] at hrun
      cases hrun
      have hlen : p.1.length = (linrange system.t_0 system.t_end d).length :=
        sim_steps_length system f d _ _ _ hss
      have hn := linrange_length system.t_0 system.t_end d
      have htime := sim_steps_time system f d _ _ _ hss
      have hformula : ∀ i, i < p.1.length + 1 →
          (((system.t_0, system.init) :: p.1).getD i (0, system.init)).1
            = system.t_0 + (i : ℚ) * d := by
        intro i hilen
        cases i with
        | zero => simp
        | succ j =>
          simp only [List.getD_cons_succ]
          have hjt := htime j (by omega) (0, system.init)
          have hjs : (linrange system.t_0 system.t_end d).getD j 0
              = system.t_0 + (j : ℚ) * d := by
            apply linrange_getD
            omega
          rw [hjt, hjs]
          push_cast
          ring
      refine ⟨by simp, ?_, ?_, ?_⟩
      · intro i hilen
        exact hformula i (by simpa using hilen)
      · intro i hilen
        have h1 := hformula i (by simp at hilen; omega)
        have h2 := hformula (i + 1) (by simpa using hilen)
        rw [h1, h2]
        have : ((i : ℚ)) < ((i + 1 : ℕ) : ℚ) := by
          push_cast
          linarith
        nlinarith
      · intro row hrow
        rw [List.mem_iff_getElem] at hrow
        obtain ⟨i, hilt, hrowi⟩ := hrow
        have hgd : (((system.t_0, system.init) :: p.1).getD i (0, system.init))
            = row := by
          rw [List.getD_eq_getElem _ _ hilt, hrowi]
        have hfi : row.1 = system.t_0 + (i : ℚ) * d := by
          rw [← hgd]
          exact hformula i (by simpa using hilt)
        have hile : i ≤ num_steps system.t_0 system.t_end d := by
          simp at hilt
          omega
        have hbound := num_steps_le system.t_0 system.t_end d hd hle
        have hmul : (i : ℚ) * d ≤ (num_steps system.t_0 system.t_end d : ℚ) * d :=
          mul_le_mul_of_nonneg_right (by exact_mod_cast hile) hd.le
        rw [hfi]
        linarith
  · have hdt : exSystem.dt = some 2 := rfl
    have hupd : ∀ (s : State ℚ) (t : ℚ), update_func s t exSystem
        = some { G := s.G + (-exSystem.k1 * (s.G - exSystem.Gb)
                      - s.X * s.G) * 2,
                 X := s.X + (exSystem.k3 * ((11 : ℚ) - exSystem.Ib)
                      - exSystem.k2 * s.X) * 2 } := by
      intro s t
      exact update_rule_euler_step.1 s t exSystem (fun _ => 11) 2 rfl rfl
    have hn : num_steps exSystem.t_0 exSystem.t_end 2 = 2 := by
      show (Int.floor ((exSystem.t_end - exSystem.t_0) / 2)).toNat = 2
      show (Int.floor (((4 : ℚ) - 0) / 2)).toNat = 2
      rw [show ((4 : ℚ) - 0) / 2 = 2 by norm_num]
      simp
    have hl : linrange exSystem.t_0 exSystem.t_end 2 = [0, 2] := by
      show (List.range (num_steps exSystem.t_0 exSystem.t_end 2)).map
          (fun i : ℕ => exSystem.t_0 + (i : ℚ) * 2) = _
      rw [hn]
      show [exSystem.t_0 + ((0 : ℕ) : ℚ) * 2, exSystem.t_0 + ((1 : ℕ) : ℚ) * 2]
          = _
      norm_num [exSystem]
    rw [run_simulation_eq exSystem update_func 2 hdt, hl]
    simp only [sim_steps_cons, hupd, Option.some_bind, sim_steps_nil,
      Option.map_some', List.map_cons, List.map_nil]
    norm_num [exSystem]

theorem linrange_exSystem : linrange exSystem.t_0 exSystem.t_end 2 = [0, 2] := by
  have hn : num_steps exSystem.t_0 exSystem.t_end 2 = 2 := by
    show (Int.floor ((exSystem.t_end - exSystem.t_0) / 2)).toNat = 2
    show (Int.floor (((4 : ℚ) - 0) / 2)).toNat = 2
    rw [show ((4 : ℚ) - 0) / 2 = 2 by norm_num]
    simp
  show (List.range (num_steps exSystem.t_0 exSystem.t_end 2)).map
      (fun i : ℕ => exSystem.t_0 + (i : ℚ) * 2) = _
  rw [hn]
  show [exSystem.t_0 + ((0 : ℕ) : ℚ) * 2, exSystem.t_0 + ((1 : ℕ) : ℚ) * 2] = _
  norm_num [exSystem]

theorem run_exSystem_idF :
    run_simulation exSystem idF
      = some [((0 : ℚ), exSystem.init), (2, exSystem.init),
              (4, exSystem.init)] := by
  rw [run_simulation_eq exSystem idF 2 rfl, linrange_exSystem]
  simp only [sim_steps_cons, idF, Option.some_bind, sim_steps_nil]
  norm_num [exSystem]

/-- Witness for run_simulation_grid: the identity rule on the notebook-style
system over the span 0..4 with dt = 2. -/
theorem run_simulation_grid_witness :
    ([((0 : ℚ), exSystem.init), (2, exSystem.init),
      (4, exSystem.init)].getD 0 (0, exSystem.init))
      = (exSystem.t_0, exSystem.init) :=
  (run_simulation_grid.1 exSystem idF 2 _ rfl (by norm_num)
    (by norm_num [exSystem]) run_exSystem_idF).1

theorem error_func_eq (sol : ℚ → State ℚ) (params : Params)
    (data : List DataRow) (system : System ℚ)
    (hsys : make_system params data = some system) :
    error_func sol params data
      = some (data.map (fun d0 =>
          (d0.time, (sol d0.time).G - d0.glucose))) := by
  simp only [error_func, run_ode_solver, hsys, Option.bind_eq_bind,
    Option.some_bind, List.map_map, zipWith_map_self]
  rfl

/-- Claim C3: error_func returns the residual sequence results.G minus
data.glucose: its time index equals the observed time index, its length
equals the number of observed points, and each entry is the simulated G at
that time minus the observed glucose there, with no interpolation. -/
theorem error_func_residuals (sol : ℚ → State ℚ) (params : Params)
    (data : List DataRow) (system : System ℚ) (errs : List (ℚ × ℚ))
    (hsys : make_system params data = some system)
    (herr : error_func sol params data = some errs) :
    errs.map Prod.fst = data.map (fun r => r.time) ∧
    errs.length = data.length ∧
    ∀ i, i < data.length →
      errs.getD i (0, 0)
        = ((data.getD i { time := 0, glucose := 0, insulin := 0 }).time,
           (sol (data.getD i
              { time := 0, glucose := 0, insulin := 0 }).time).G
             - (data.getD i
                { time := 0, glucose := 0, insulin := 0 }).glucose) := by
  rw [error_func_eq sol params data system hsys] at herr
  cases herr
  refine ⟨?_, ?_, ?_⟩
  · rw [List.map_map]
    rfl
  · simp
  · intro i hi
    rw [List.getD_eq_getElem _ _ (by simpa using hi), List.getElem_map,
        List.getD_eq_getElem _ _ hi]

/-- Witness for error_func_residuals: the constant solver solution on the
small table. -/
theorem error_func_residuals_witness :
    ([((0 : ℚ), (198 : ℚ)), (2, -60), (4, 3)]).map Prod.fst
      = exData.map (fun r => r.time) := by
  have herr : error_func solQ exParams exData
      = some [((0 : ℚ), (198 : ℚ)), (2, -60), (4, 3)] := by
    rw [error_func_eq solQ exParams exData exSysM rfl]
    simp [solQ, exData]
    norm_num
  exact (error_func_residuals solQ exParams exData exSysM
    [((0 : ℚ), (198 : ℚ)), (2, -60), (4, 3)] rfl herr).1

/-- Claim C7: a rule failure is not caught by the stepping harness: when the
caller-supplied rule raises at a step that the run reaches, run_simulation
fails as a whole, with no retry and no recovery inside the simulator. -/
theorem rule_failure_propagates (system : System ℚ)
    (f : State ℚ → ℚ → System ℚ → Option (State ℚ)) (d : ℚ)
    (ts1 ts2 : List ℚ) (t : ℚ) (p : List (ℚ × State ℚ) × State ℚ)
    (hdt : system.dt = some d)
    (hlin : linrange system.t_0 system.t_end d = ts1 ++ t :: ts2)
    (hpre : sim_steps system f d system.init ts1 = some p)
    (hfail : f p.2 t system = none) :
    run_simulation system f = none := by
  rw [run_simulation_eq system f d hdt, hlin, sim_steps_append, hpre,
      Option.some_bind, sim_steps_cons, hfail, Option.none_bind,
      Option.none_bind, Option.none_bind]

/-- Witness for rule_failure_propagates: a rule that raises at time 2, on
the notebook-style system, after one successful step. -/
theorem rule_failure_propagates_witness :
    run_simulation exSystem failF = none := by
  have hpre : sim_steps exSystem failF 2 exSystem.init [0]
      = some ([((0 : ℚ) + 2, exSystem.init)], exSystem.init) := rfl
  exact rule_failure_propagates exSystem failF 2 [0] [] 2
    ([((0 : ℚ) + 2, exSystem.init)], exSystem.init) rfl
    (by rw [linrange_exSystem]; rfl) hpre rfl

/-- Claim C9: every state a run produces has the same two named fields G
then X, and states are never mutated in place: the initial state is recorded
unchanged at t_0, and running further steps only appends rows, the rows
recorded earlier surviving unchanged as a prefix of the longer run. -/
theorem trajectory_rows_stable :
    (∀ (system : System ℚ)
        (f : State ℚ → ℚ → System ℚ → Option (State ℚ))
        (traj : List (ℚ × State ℚ)),
        run_simulation system f = some traj →
        traj.getD 0 (0, system.init) = (system.t_0, system.init) ∧
        ∀ row ∈ traj, row.2 = { G := row.2.G, X := row.2.X }) ∧
    (∀ (system : System ℚ)
        (f : State ℚ → ℚ → System ℚ → Option (State ℚ)) (d : ℚ)
        (s : State ℚ) (ts1 ts2 : List ℚ)
        (p1 p2 : List (ℚ × State ℚ) × State ℚ),
        sim_steps system f d s ts1 = some p1 →
        sim_steps system f d s (ts1 ++ ts2) = some p2 →
        p2.1.take p1.1.length = p1.1) := by
  constructor
  · intro system f traj hrun
    cases hdt : system.dt with
    | none => simp [run_simulation, hdt] at hrun
    | some d =>
      rw [run_simulation_eq system f d hdt] at hrun
      cases hss : sim_steps system f d system.init
          (linrange system.t_0 system.t_end d) with
      | none => rw [hss, Option.none_bind] at hrun; simp at hrun
      | some p =>
        rw [hss, Option.some_bind] at hrun
        cases hrun
        exact ⟨by simp, fun row _ => rfl⟩
  · intro system f d s ts1 ts2 p1 p2 h1 h12
    rw [sim_steps_append, h1, Option.some_bind] at h12
    cases hq : sim_steps system f d p1.2 ts2 with
    | none => rw [hq, Option.none_bind] at h12; simp at h12
    | some q =>
      rw [hq, Option.some_bind] at h12
      cases h12
      simp [List.take_left]

/-- Witness for trajectory_rows_stable: one step of the identity rule, then
the same run extended by one more step. -/
theorem trajectory_rows_stable_witness :
    ([((0 : ℚ) + 2, exSystem.init), ((2 : ℚ) + 2, exSystem.init)].take
        ([((0 : ℚ) + 2, exSystem.init)] : List (ℚ × State ℚ)).length)
      = [((0 : ℚ) + 2, exSystem.init)] :=
  trajectory_rows_stable.2 exSystem idF 2 exSystem.init [0] [2]
    ([((0 : ℚ) + 2, exSystem.init)], exSystem.init)
    ([((0 : ℚ) + 2, exSystem.init), ((2 : ℚ) + 2, exSystem.init)],
      exSystem.init)
    rfl rfl

/-- Claim C6: with all rate constants k1, k2, k3 zero, the continuous
simulation driven by slope_func shows no drift: any exact solution of the
slope ODE through the initial state (whose X component is 0) is constant, so
the bridged trajectory equals the initial state at every requested
evaluation time. -/
theorem zero_rates_no_drift (system : System ℝ) (Ifun : ℝ → ℝ)
    (sol : ℝ → State ℝ) (dG dX : ℝ → ℝ) (t_eval : List ℝ)
    (hI : system.I = some Ifun)
    (hk1 : system.k1 = 0) (hk2 : system.k2 = 0) (hk3 : system.k3 = 0)
    (hX0 : system.init.X = 0)
    (hinit : sol system.t_0 = system.init)
    (hG : ∀ t, HasDerivAt (fun u => (sol u).G) (dG t) t)
    (hX : ∀ t, HasDerivAt (fun u => (sol u).X) (dX t) t)
    (hslope : ∀ t, slope_func (sol t) t system = some (dG t, dX t)) :
    ∀ row ∈ run_ode_solver system slope_func t_eval sol,
      row.2 = system.init := by
  have hcomp : ∀ t,
      -system.k1 * ((sol t).G - system.Gb) - (sol t).X * (sol t).G = dG t ∧
      system.k3 * (Ifun t - system.Ib) - system.k2 * (sol t).X = dX t := by
    intro t
    have h := hslope t
    simp only [slope_func, hI, Option.bind_eq_bind, Option.some_bind,
      Option.pure_def, Option.some.injEq, Prod.mk.injEq] at h
    exact h
  have hdX : ∀ t, dX t = 0 := by
    intro t
    have h := (hcomp t).2
    rw [hk2, hk3] at h
    linarith
  have hX0' : ∀ t, HasDerivAt (fun u => (sol u).X) 0 t := fun t =>
    hdX t ▸ hX t
  have hXc := is_const_of_deriv_eq_zero
    (fun t => (hX0' t).differentiableAt) (fun t => (hX0' t).deriv)
  have hXconst : ∀ t, (sol t).X = 0 := by
    intro t
    rw [hXc t system.t_0, hinit, hX0]
  have hdG : ∀ t, dG t = 0 := by
    intro t
    have h := (hcomp t).1
    rw [hk1, hXconst t] at h
    linarith
  have hG0' : ∀ t, HasDerivAt (fun u => (sol u).G) 0 t := fun t =>
    hdG t ▸ hG t
  have hGc := is_const_of_deriv_eq_zero
    (fun t => (hG0' t).differentiableAt) (fun t => (hG0' t).deriv)
  intro row hrow
  unfold run_ode_solver at hrow
  rw [List.mem_map] at hrow
  obtain ⟨t, _, ht⟩ := hrow
  rw [← ht]
  show sol t = system.init
  have h1 : (sol t).G = system.init.G := by rw [hGc t system.t_0, hinit]
  have h2 : (sol t).X = system.init.X := by rw [hXconst t, hX0]
  calc sol t = { G := (sol t).G, X := (sol t).X } := rfl
    _ = { G := system.init.G, X := system.init.X } := by rw [h1, h2]
    _ = system.init := rfl

/-- Witness for zero_rates_no_drift: the zero-rate real system, its constant
solution, and the single evaluation time 0. -/
theorem zero_rates_no_drift_witness :
    (((0 : ℝ), ({ G := 290, X := 0 } : State ℝ)) : ℝ × State ℝ).2
      = sysR.init :=
  zero_rates_no_drift sysR (fun _ => 11) solR (fun _ => 0) (fun _ => 0) [0]
    rfl rfl rfl rfl rfl rfl
    (fun t => hasDerivAt_const t (290 : ℝ))
    (fun t => hasDerivAt_const t (0 : ℝ))
    (fun t => by simp [slope_func, sysR, solR])
    ((0 : ℝ), { G := 290, X := 0 })
    (by simp [run_ode_solver, solR])
